import Mathlib

/-!
Verification of the process-backed RPC session layer of the mcp-client-server
repository: a shallow embedding of the framed stdio transport, the session
cache with health checking, the process supervisor (deploy / terminate /
stop), the tool-invocation facade and the smoke-test runner, together with
proofs of the behavioural properties stated in the specification.
-/

namespace MCP

/-! ### Framed Transport: incoming-data algorithm (ProcessTransport.handleData)

The transport appends every received chunk to `messageBuffer`, then repeatedly
scans for a newline; each complete line is stripped from the buffer and, when
non-empty after trimming, is JSON-parsed and delivered to `onmessage`.  A
trailing fragment with no newline stays in the buffer.  `extractLines` is the
loop of `handleData`: it returns the complete newline-terminated lines (in
order) together with the remaining buffer. -/

def NL : Char := Char.ofNat 10

def extractLines : List Char → List (List Char) × List Char
  | [] => ([], [])
  | c :: cs =>
    let p := extractLines cs
    if c = NL then
      ([] :: p.1, p.2)
    else
      match p.1 with
      | [] => ([], c :: p.2)
      | l :: ls => ((c :: l) :: ls, p.2)

/-- One call of `ProcessTransport.handleData`: append the chunk to the
buffer, then drain all complete lines. -/
def handleData (buffer data : List Char) : List (List Char) × List Char :=
  extractLines (buffer ++ data)

/-- Whitespace test used by the `messageStr.trim()` guard. -/
def isWS (c : Char) : Bool :=
  c = ' ' || c = Char.ofNat 9 || c = Char.ofNat 10 || c = Char.ofNat 13

def trimChars (l : List Char) : List Char :=
  ((l.dropWhile isWS).reverse.dropWhile isWS).reverse

/-- Per-line dispatch of `handleData`: a line that is empty after trimming is
skipped; otherwise `JSON.parse` is attempted (`parse` returns `some` on
success, delivered to `onmessage`; `none` is a parse failure, reported to
`onerror` and the line is discarded). -/
def dispatchLine {M : Type} (parse : List Char → Option M) (l : List Char) :
    Option M :=
  if trimChars l = [] then none else parse l

/-- Feeding a sequence of chunks to the transport, starting from a given
buffer: the ordered messages delivered to `onmessage`, and the final buffer. -/
def feedChunks {M : Type} (parse : List Char → Option M) :
    List Char → List (List Char) → List M × List Char
  | buffer, [] => ([], buffer)
  | buffer, d :: ds =>
    let p := handleData buffer d
    let q := feedChunks parse p.2 ds
    (p.1.filterMap (dispatchLine parse) ++ q.1, q.2)

theorem extractLines_cons (c : Char) (cs : List Char) :
    extractLines (c :: cs) =
      if c = NL then ([] :: (extractLines cs).1, (extractLines cs).2)
      else
        match (extractLines cs).1 with
        | [] => ([], c :: (extractLines cs).2)
        | l :: ls => ((c :: l) :: ls, (extractLines cs).2) := rfl

theorem extractLines_append (a b : List Char) :
    extractLines (a ++ b) =
      ((extractLines a).1 ++ (extractLines ((extractLines a).2 ++ b)).1,
       (extractLines ((extractLines a).2 ++ b)).2) := by
  induction a with
  | nil => simp [extractLines]
  | cons c cs ih =>
    rcases hcs : extractLines cs with ⟨ls1, r1⟩
    rcases hrb : extractLines (r1 ++ b) with ⟨ls2, r2⟩
    have ih2 : extractLines (cs ++ b) = (ls1 ++ ls2, r2) := by
      rw [ih, hcs]
      simp [hrb]
    by_cases hc : c = NL
    · rw [List.cons_append, extractLines_cons, extractLines_cons, ih2, hcs]
      simp [hc, hrb]
    · rw [List.cons_append, extractLines_cons, extractLines_cons, ih2, hcs]
      cases ls1 with
      | nil =>
        simp only [hc, if_false, List.nil_append]
        rw [List.cons_append, extractLines_cons, hrb]
        cases ls2 <;> simp [hc]
      | cons l ls0 =>
        simp [hc, hrb]

theorem NL_not_mem_extractLines_rest (s : List Char) :
    NL ∉ (extractLines s).2 := by
  induction s with
  | nil => simp [extractLines]
  | cons c cs ih =>
    by_cases hc : c = NL
    · simpa [extractLines, hc] using ih
    · simp only [extractLines, hc, if_false]
      rcases h : (extractLines cs).1 with _ | ⟨l, ls⟩
      · simp only [List.mem_cons, not_or]
        exact ⟨fun hn => hc hn.symm, by simpa using ih⟩
      · simpa using ih

theorem extractLines_of_no_newline (s : List Char) (h : NL ∉ s) :
    extractLines s = ([], s) := by
  induction s with
  | nil => simp [extractLines]
  | cons c cs ih =>
    simp only [List.mem_cons, not_or] at h
    have hc : ¬ c = NL := fun hcc => h.1 hcc.symm
    simp [extractLines, hc, ih h.2]

theorem extractLines_decomposition (s : List Char) :
    ((extractLines s).1.map (fun l => l ++ [NL])).flatten ++ (extractLines s).2
      = s := by
  induction s with
  | nil => simp [extractLines]
  | cons c cs ih =>
    by_cases hc : c = NL
    · simp [extractLines, hc, ih]
    · simp only [extractLines, hc, if_false]
      rcases h : (extractLines cs).1 with _ | ⟨l, ls⟩
      · simp only [h, List.map_nil, List.flatten] at ih ⊢
        simpa using ih
      · simp only [h, List.map_cons, List.flatten] at ih ⊢
        simpa using ih

theorem feedChunks_eq_join {M : Type} (parse : List Char → Option M)
    (buffer : List Char) (chunks : List (List Char)) (h : NL ∉ buffer) :
    feedChunks parse buffer chunks =
      ((extractLines (buffer ++ chunks.flatten)).1.filterMap (dispatchLine parse),
       (extractLines (buffer ++ chunks.flatten)).2) := by
  induction chunks generalizing buffer with
  | nil =>
    simp [feedChunks, extractLines_of_no_newline _ h]
  | cons d ds ih =>
    have hrest : NL ∉ (extractLines (buffer ++ d)).2 :=
      NL_not_mem_extractLines_rest _
    have happ := extractLines_append (buffer ++ d) ds.flatten
    simp only [feedChunks, handleData, ih _ hrest]
    rw [List.flatten_cons, ← List.append_assoc, happ]
    simp

/-- C1: For every byte stream fed to the Framed Transport's incoming-data
handler and every way of splitting that stream into chunks, processing the
chunks in order delivers the identical ordered sequence of parsed messages to
`onmessage`; a message is dispatched only once its terminating newline has
been accumulated (the delivered lines, each re-terminated with a newline,
re-assemble an initial segment of the stream) and the trailing fragment
(which contains no newline) is retained in the buffer across chunk
boundaries. -/
theorem handleData_chunking_invariant {M : Type} (parse : List Char → Option M)
    (c1 c2 : List (List Char)) (h : c1.flatten = c2.flatten) :
    feedChunks parse [] c1 = feedChunks parse [] c2 ∧
    (feedChunks parse [] c1).1 =
      (extractLines c1.flatten).1.filterMap (dispatchLine parse) ∧
    (feedChunks parse [] c1).2 = (extractLines c1.flatten).2 ∧
    NL ∉ (feedChunks parse [] c1).2 ∧
    ((extractLines c1.flatten).1.map (fun l => l ++ [NL])).flatten ++
        (extractLines c1.flatten).2 = c1.flatten := by
  have e1 := feedChunks_eq_join parse [] c1 (by simp)
  have e2 := feedChunks_eq_join parse [] c2 (by simp)
  simp only [List.nil_append] at e1 e2
  refine ⟨by rw [e1, e2, h], by rw [e1], by rw [e1], ?_, extractLines_decomposition _⟩
  rw [e1]
  exact NL_not_mem_extractLines_rest _

/-- Witness for C1: the stream "ab\ncd\ne" chunked as ["ab\nc", "d\ne"] and as
["ab", "\ncd\n", "e"] delivers the same messages and final buffer. -/
theorem handleData_chunking_invariant_witness :
    feedChunks (fun l => some l) [] ["ab\nc".toList, "d\ne".toList] =
      feedChunks (fun l => some l) [] ["ab".toList, "\ncd\n".toList, "e".toList] :=
  (handleData_chunking_invariant (fun l => some l)
    ["ab\nc".toList, "d\ne".toList] ["ab".toList, "\ncd\n".toList, "e".toList]
    (by decide)).1

/-! ### Framed Transport: close / exit / error lifecycle (ProcessTransport)

`start()` registers the `exitHandler` on the process's exit event and an error
handler on its error event.  `close()` removes the exit-event listener, kills
the owned process if it is still alive, marks the channel disconnected, and in
a `finally` block invokes `onclose` — on every invocation, with no
"already closed" guard.  The `exitHandler` fires `onclose` when the process
exit event occurs while the listener is still registered; the error handler
fires only `onerror`.  `CState` is the relevant transport state and
`stepEvent` the effect of one trigger. -/

structure CState where
  exitSubscribed : Bool
  isConnected : Bool
  killed : Bool
  oncloseFires : Nat
  onerrorFires : Nat
deriving DecidableEq, Repr

/-- Transport state right after a successful `start()`. -/
def startedState : CState :=
  { exitSubscribed := true, isConnected := true, killed := false,
    oncloseFires := 0, onerrorFires := 0 }

inductive TEvent where
  | closeCall
  | exitEvent
  | errorEvent
deriving DecidableEq, Repr

/-- Effect of one trigger on the transport, mirroring `close()`, the
registered `exitHandler`, and the process-error handler. -/
def stepEvent (s : CState) : TEvent → CState
  | .closeCall =>
    { s with exitSubscribed := false,
             killed := true,
             isConnected := false,
             oncloseFires := s.oncloseFires + 1 }
  | .exitEvent =>
    if s.exitSubscribed then
      { s with isConnected := false, oncloseFires := s.oncloseFires + 1 }
    else s
  | .errorEvent =>
    { s with isConnected := false, onerrorFires := s.onerrorFires + 1 }

def runEvents (s : CState) (es : List TEvent) : CState :=
  es.foldl stepEvent s

/-- Number of `onclose` firings produced by a trigger sequence from the
started state: one per `close()` call, plus one per process-exit event that
occurs before the first `close()` call (the exit listener stays registered
until `close()` removes it). -/
def oncloseTotal : List TEvent → Nat
  | [] => 0
  | .closeCall :: es => 1 + (es.countP (· = .closeCall))
  | .exitEvent :: es => 1 + oncloseTotal es
  | .errorEvent :: es => oncloseTotal es

theorem runEvents_onclose_aux (es : List TEvent) (s : CState) :
    (runEvents s es).oncloseFires =
      s.oncloseFires +
        (if s.exitSubscribed then oncloseTotal es
         else es.countP (· = .closeCall)) := by
  induction es generalizing s with
  | nil => simp [runEvents, oncloseTotal]
  | cons e es ih =>
    have hstep : runEvents s (e :: es) = runEvents (stepEvent s e) es := rfl
    rw [hstep, ih]
    cases e with
    | closeCall =>
      by_cases hs : s.exitSubscribed <;>
        simp [stepEvent, oncloseTotal, hs, List.countP_cons] <;> omega
    | exitEvent =>
      by_cases hs : s.exitSubscribed
      · simp only [stepEvent, oncloseTotal, hs, if_true]
        omega
      · simp [stepEvent, oncloseTotal, hs, List.countP_cons]
    | errorEvent =>
      by_cases hs : s.exitSubscribed <;>
        simp [stepEvent, oncloseTotal, hs, List.countP_cons]

/-- C2 counterexample: invoking `close()` twice fires the `onclose`
notification twice — `close()` invokes `onclose` in its `finally` block on
every call, with no already-closed guard — refuting "called at most once in
total no matter how many times close() is invoked". -/
theorem close_twice_fires_onclose_twice :
    (runEvents startedState [TEvent.closeCall, TEvent.closeCall]).oncloseFires
      = 2 := by decide

/-- C2 amended: over any sequence of close / process-exit / process-error
triggers after `start()`, `onclose` fires exactly once per `close()`
invocation plus once per exit event delivered before the first `close()`
(exit events after a `close()` no longer fire it, because `close()` removes
the exit listener); in particular it fires at most once only when there is at
most one such trigger, not for repeated `close()` calls. -/
theorem onclose_fires_per_trigger (es : List TEvent) :
    (runEvents startedState es).oncloseFires = oncloseTotal es := by
  simpa [startedState] using runEvents_onclose_aux es startedState

/-! ### Process Supervisor: deployServer and terminateProcess

A `Proc` is one OS child process.  `killedFlag` mirrors Node's
`ChildProcess.killed`, which becomes true as soon as a signal has been
*delivered* (not when the process dies); `exitsOnSigterm` is an oracle for
whether this process will exit within the ≈1-second graceful window after
receiving SIGTERM.  `runningServers` is the supervisor's name-keyed map and
`connectedClients` here stands for the session-cache keys touched by
`removeClientFromCache` during deployment. -/

structure Proc where
  pid : Nat
  alive : Bool
  killedFlag : Bool
  exitsOnSigterm : Bool
deriving DecidableEq, Repr

structure ProcEntry where
  pid : Nat
  source_path : String
deriving DecidableEq, Repr

structure SupState where
  runningServers : List (String × ProcEntry)
  procs : List Proc
  connectedClients : List String
  nextPid : Nat
deriving DecidableEq, Repr

def emptySup : SupState :=
  { runningServers := [], procs := [], connectedClients := [], nextPid := 0 }

def updateProc (st : SupState) (pid : Nat) (f : Proc → Proc) : SupState :=
  { st with procs := st.procs.map (fun p => if p.pid = pid then f p else p) }

def findProc (st : SupState) (pid : Nat) : Option Proc :=
  st.procs.find? (fun p => p.pid = pid)

/-- Embedding of `terminateProcess(name)`.  Looks up the server (a
`ServerNotFoundError` is caught, logged and swallowed); sends SIGTERM (which
sets Node's `killed` flag); removes the map entry immediately; then waits for
either the natural exit (observed via the `exit` event) or the ≈1-second
escalation timeout, whose handler sends SIGKILL only when `process.killed` is
still false — it never is after a delivered SIGTERM — and resolves without
awaiting the exit event; finally a settle delay.  The returned `Bool` is
whether the old process's exit event was observed before returning. -/
def terminateProcess (st : SupState) (name : String) : SupState × Bool :=
  match st.runningServers.lookup name with
  | none => (st, false)
  | some entry =>
    let st1 := updateProc st entry.pid (fun p => { p with killedFlag := true })
    let st2 := { st1 with
      runningServers := st1.runningServers.filter (fun e => e.1 ≠ name) }
    match findProc st2 entry.pid with
    | none => (st2, false)
    | some p =>
      if p.exitsOnSigterm then
        (updateProc st2 entry.pid (fun q => { q with alive := false }), true)
      else if p.killedFlag then
        (st2, false)
      else
        (updateProc st2 entry.pid
          (fun q => { q with killedFlag := true, alive := false }), false)

structure DeployInput where
  name : String
  source_path : String
  persistent : Bool
  exitsOnSigterm : Bool
deriving DecidableEq, Repr

structure DeployResponse where
  name : String
  id : String
  status : String
deriving DecidableEq, Repr

/-- Embedding of `deployServer`.  Source-path validation and start-command
determination are the out-of-scope collaborators (assumed already resolved);
the deploy evicts any cached client for the name, fully runs
`terminateProcess` when a server with this name is already registered, spawns
the new child process, registers it under the name, and returns after the
warm-up delay. -/
def deployServer (st : SupState) (inp : DeployInput) : SupState × DeployResponse :=
  let st0 := { st with
    connectedClients := st.connectedClients.filter (fun n => n ≠ inp.name) }
  let st1 :=
    if (st0.runningServers.lookup inp.name).isSome then
      (terminateProcess st0 inp.name).1
    else st0
  let newProc : Proc :=
    { pid := st1.nextPid, alive := true, killedFlag := false,
      exitsOnSigterm := inp.exitsOnSigterm }
  let st2 := { st1 with
    procs := st1.procs ++ [newProc],
    runningServers :=
      (inp.name, { pid := st1.nextPid, source_path := inp.source_path }) ::
        st1.runningServers.filter (fun e => e.1 ≠ inp.name),
    nextPid := st1.nextPid + 1 }
  (st2, { name := inp.name, id := "mcp-test-" ++ inp.name, status := "running" })

/-- The two-deploy scenario: deploy name from pathA, then from pathB, with
the first process honouring (or not) SIGTERM within the graceful window. -/
def redeployScenario (g1 g2 : Bool) : SupState :=
  (deployServer
    (deployServer emptySup
      { name := "srv", source_path := "pathA", persistent := false,
        exitsOnSigterm := g1 }).1
    { name := "srv", source_path := "pathB", persistent := false,
      exitsOnSigterm := g2 }).1

/-- C3 counterexample: deploy "srv" from pathA spawning a process (pid 0)
that ignores SIGTERM; redeploy "srv" from pathB.  The escalation path
resolves after the timeout without observing the exit event (and its SIGKILL
is skipped because Node's `killed` flag is already set by the delivered
SIGTERM), so when the second deploy returns the first process is still
alive — refuting "the first process has exited by the time the second deploy
call returns". -/
theorem redeploy_leaves_stubborn_process_alive :
    (findProc (redeployScenario false false) 0).map Proc.alive = some true ∧
    (redeployScenario false false).runningServers.lookup "srv" =
      some { pid := 1, source_path := "pathB" } := by decide

/-- C3 amended: redeploying under the same name always removes the prior
entry before spawning, so the map holds exactly the replacement process; and
when the first process exits within the ≈1-second graceful window after
SIGTERM, its exit event is observed by the in-deploy termination before the
replacement is spawned, and it is no longer alive when the second deploy
returns.  A process that survives SIGTERM past the escalation timeout may
still be alive at that point. -/
theorem redeploy_terminates_graceful_first_process (g2 : Bool) :
    (findProc (redeployScenario true g2) 0).map Proc.alive = some false ∧
    (terminateProcess
        (deployServer emptySup
          { name := "srv", source_path := "pathA", persistent := false,
            exitsOnSigterm := true }).1 "srv").2 = true ∧
    (redeployScenario true g2).runningServers =
      [("srv", { pid := 1, source_path := "pathB" })] := by
  cases g2 <;> exact ⟨by decide, by decide, by decide⟩

/-! ### Error taxonomy

The error classes used by the session layer.  `common/errors.ts` is not among
the provided sources, so the message text attached to each class is modelled
minimally; the claims below depend only on which class reaches the caller,
never on message wording. -/

inductive MCPError where
  | serverNotFound (name : String)
  | toolCallError (server op msg : String)
  | deploymentError (msg : String)
deriving DecidableEq, Repr

/-- The `.message` string observed when an error is caught and re-wrapped. -/
def errMessage : MCPError → String
  | .serverNotFound n => "Server not found: " ++ n
  | .toolCallError s op m => "Tool call " ++ op ++ " failed for " ++ s ++ ": " ++ m
  | .deploymentError m => m

/-! ### Session Cache and connection management (cache.ts / connection.ts)

`connectedClients` maps a server name to its live RPC client, modelled by a
numeric client identity drawn from `nextId` (so "the same underlying client
object" is "the same identity").  `ConnEnv` packages the collaborators:
which names are registered in `runningServers`, whose process handle is
present and not killed, how the health-check race resolves for the cached
client, whether `client.connect` succeeds for a fresh client, whether the
RPC `listTools` call succeeds, the tool names the server advertises, and
which cached transports fail while being closed. -/

inductive HealthOutcome where
  | healthy
  | callFails
  | timesOut
deriving DecidableEq, Repr

structure ConnEnv where
  running : List String
  processAlive : List String
  health : String → HealthOutcome
  connectOk : List String
  listCallOk : List String
  toolNames : String → List String
  closeThrows : List String

structure ClientCache where
  entries : List (String × Nat)
  nextId : Nat
deriving DecidableEq, Repr

def emptyCache : ClientCache := { entries := [], nextId := 0 }

/-- Embedding of `removeClientFromCache`: if an entry exists its transport
close is attempted (an asynchronous rejection is swallowed by `.catch`, a
synchronous throw by the `catch` block), and the `finally` block deletes the
entry regardless — so the result does not depend on `closeFails`. -/
def removeClientFromCache (closeFails : Bool) (c : ClientCache) (name : String) :
    ClientCache :=
  if (c.entries.lookup name).isSome then
    let _ := closeFails
    { c with entries := c.entries.filter (fun e => e.1 ≠ name) }
  else c

/-- Embedding of `verifyConnection`: the introspective `listTools` probe is
raced against the ≈1-second timeout; a resolved probe reports healthy, a
rejected probe is turned into `false` by its `.catch`, and the timeout's
rejection is caught by the surrounding `catch` which also returns `false`.
The health check never throws. -/
def verifyConnection (o : HealthOutcome) : Bool :=
  match o with
  | .healthy => true
  | .callFails => false
  | .timesOut => false

/-- Embedding of `createNewClient`: looks up the server process, builds a
transport and client and connects, caching the client on success; any
failure — including the `ServerNotFoundError` from the process lookup — is
caught and re-thrown as `ToolCallError(serverName, "connect", message)`. -/
def createNewClient (env : ConnEnv) (c : ClientCache) (name : String) :
    Except MCPError Nat × ClientCache :=
  if name ∈ env.running then
    if name ∈ env.connectOk then
      (.ok c.nextId,
       { entries := (name, c.nextId) :: c.entries.filter (fun e => e.1 ≠ name),
         nextId := c.nextId + 1 })
    else
      (.error (.toolCallError name "connect" "connect failed"), c)
  else
    (.error (.toolCallError name "connect" (errMessage (.serverNotFound name))), c)

/-- Embedding of `getClient`: on a cached entry, confirm the process is still
registered and alive and run the health check; reuse the cached client when
healthy; on any failure at any step evict the entry and fall through to
`createNewClient`.  The final `Nat` counts the `createNewClient` attempts
made by this acquisition. -/
def getClient (env : ConnEnv) (c : ClientCache) (name : String) :
    Except MCPError Nat × ClientCache × Nat :=
  match c.entries.lookup name with
  | some cached =>
    if name ∈ env.running then
      if name ∈ env.processAlive then
        if verifyConnection (env.health name) then
          (.ok cached, c, 0)
        else
          let c1 := removeClientFromCache (name ∈ env.closeThrows) c name
          let r := createNewClient env c1 name
          (r.1, r.2, 1)
      else
        let c1 := removeClientFromCache (name ∈ env.closeThrows) c name
        let r := createNewClient env c1 name
        (r.1, r.2, 1)
    else
      let c1 := removeClientFromCache (name ∈ env.closeThrows) c name
      let r := createNewClient env c1 name
      (r.1, r.2, 1)
  | none =>
    let r := createNewClient env c name
    (r.1, r.2, 1)

/-- Embedding of `listTools(serverName)`: acquire a client, issue the
introspective list call and return the tool names; any error — from
acquisition or from the list call itself — is caught and re-thrown as
`ToolCallError(serverName, "listTools", message)`. -/
def listTools (env : ConnEnv) (c : ClientCache) (name : String) :
    Except MCPError (List String) × ClientCache × Nat :=
  match getClient env c name with
  | (.error e, c1, k) =>
    (.error (.toolCallError name "listTools" (errMessage e)), c1, k)
  | (.ok _, c1, k) =>
    if name ∈ env.listCallOk then
      (.ok (env.toolNames name), c1, k)
    else
      (.error (.toolCallError name "listTools" "listTools failed"), c1, k)

/-- Environment with no registered server, used to exercise the
acquisition-failure path. -/
def deadEnv : ConnEnv :=
  { running := [], processAlive := [], health := fun _ => .healthy,
    connectOk := [], listCallOk := [], toolNames := fun _ => [],
    closeThrows := [] }

/-- C4 counterexample: listing tools of a server that was never deployed.
The `ServerNotFoundError` raised by the process lookup is wrapped by
`createNewClient` into `ToolCallError(name, "connect", …)` and wrapped again
by `listTools` into `ToolCallError(name, "listTools", …)`; the caller
receives a `ToolCallError`, never the `NotFoundError` unchanged — refuting
"a NotFoundError propagates to the caller unchanged rather than being caught
or converted into another error type". -/
theorem listTools_wraps_notFound :
    (listTools deadEnv emptyCache "srv").1 =
      .error (.toolCallError "srv" "listTools"
        (errMessage (.toolCallError "srv" "connect"
          (errMessage (.serverNotFound "srv"))))) ∧
    ∀ n, (listTools deadEnv emptyCache "srv").1 ≠ .error (.serverNotFound n) := by
  constructor
  · rfl
  · intro n h
    simp [listTools, getClient, createNewClient, deadEnv, emptyCache] at h

/-- C4 amended: every acquisition failure of `listTools` — `NotFoundError`
included — is caught and re-thrown as `ToolCallError(serverName, "listTools",
message)` carrying the underlying message; acquisition errors never reach the
caller unchanged. -/
theorem listTools_converts_acquisition_failures (env : ConnEnv)
    (c : ClientCache) (name : String) (e : MCPError) (c1 : ClientCache) (k : Nat)
    (h : getClient env c name = (.error e, c1, k)) :
    listTools env c name =
      (.error (.toolCallError name "listTools" (errMessage e)), c1, k) := by
  simp [listTools, h]

/-- Witness for C4's amended theorem at the concrete never-deployed server. -/
theorem listTools_converts_acquisition_failures_witness :
    listTools deadEnv emptyCache "srv" =
      (.error (.toolCallError "srv" "listTools"
        (errMessage (.toolCallError "srv" "connect"
          (errMessage (.serverNotFound "srv"))))), emptyCache, 1) :=
  listTools_converts_acquisition_failures deadEnv emptyCache "srv"
    (.toolCallError "srv" "connect" (errMessage (.serverNotFound "srv")))
    emptyCache 1 rfl

/-- C5: when a cached client is found with its process registered and alive
but the health check times out or its probe call fails, the stale entry is
evicted and exactly one rebuild is attempted: the acquisition performs
exactly one `createNewClient` call, the fresh client (identity `c.nextId`) is
returned and cached when connect succeeds, and the only error the caller can
see is the rebuild's own connection failure — the health-check outcome itself
is never surfaced as an error. -/
theorem health_failure_evicts_and_rebuilds_once (env : ConnEnv)
    (c : ClientCache) (name : String) (cached : Nat)
    (hcache : c.entries.lookup name = some cached)
    (hrun : name ∈ env.running)
    (halive : name ∈ env.processAlive)
    (hsick : env.health name ≠ .healthy) :
    (getClient env c name).2.2 = 1 ∧
    (name ∈ env.connectOk →
      (getClient env c name).1 = .ok c.nextId ∧
      ((getClient env c name).2.1.entries.lookup name = some c.nextId)) ∧
    (name ∉ env.connectOk →
      (getClient env c name).1 =
        .error (.toolCallError name "connect" "connect failed")) := by
  have hv : verifyConnection (env.health name) = false := by
    cases h : env.health name with
    | healthy => exact absurd h hsick
    | callFails => rfl
    | timesOut => rfl
  have hnext : (removeClientFromCache (name ∈ env.closeThrows) c name).nextId
      = c.nextId := by
    unfold removeClientFromCache
    split <;> rfl
  by_cases hco : name ∈ env.connectOk
  · refine ⟨?_, fun _ => ⟨?_, ?_⟩, fun hn => absurd hco hn⟩ <;>
      simp [getClient, hcache, hrun, halive, hv, createNewClient, hco, hnext,
        List.lookup]
  · refine ⟨?_, fun hn => absurd hn hco, fun _ => ?_⟩ <;>
      simp [getClient, hcache, hrun, halive, hv, createNewClient, hco, hnext]

/-- Witness for C5: a server with a cached but timing-out session rebuilds
exactly once and hands out the fresh client. -/
theorem health_failure_evicts_and_rebuilds_once_witness :
    (getClient
        { running := ["srv"], processAlive := ["srv"],
          health := fun _ => .timesOut, connectOk := ["srv"],
          listCallOk := ["srv"], toolNames := fun _ => [],
          closeThrows := [] }
        { entries := [("srv", 0)], nextId := 1 } "srv").2.2 = 1 :=
  (health_failure_evicts_and_rebuilds_once
    { running := ["srv"], processAlive := ["srv"],
      health := fun _ => .timesOut, connectOk := ["srv"],
      listCallOk := ["srv"], toolNames := fun _ => [],
      closeThrows := [] }
    { entries := [("srv", 0)], nextId := 1 } "srv" 0
    (by decide) (by decide) (by decide) (by decide)).1

theorem createNewClient_ok (env : ConnEnv) (c : ClientCache) (name : String)
    (id : Nat) (h : (createNewClient env c name).1 = .ok id) :
    name ∈ env.running ∧
      (createNewClient env c name).2.entries.lookup name = some id := by
  unfold createNewClient at h ⊢
  by_cases hr : name ∈ env.running
  · by_cases hco : name ∈ env.connectOk
    · simp only [hr, if_true, hco, Except.ok.injEq] at h
      subst h
      simp [hr, hco, List.lookup]
    · simp [hr, hco] at h
  · simp [hr] at h

/-- C7: an acquisition that succeeded leaves the returned client cached under
the name, so a second acquisition in immediate succession — process alive and
health check passing, no intervening failure — is a cache hit: it returns the
same underlying client identity, leaves the cache untouched and performs zero
`createNewClient` calls (never a second concurrent connection). -/
theorem second_acquire_is_cache_hit (env : ConnEnv) (c : ClientCache)
    (name : String) (id : Nat) (c1 : ClientCache) (k : Nat)
    (hfirst : getClient env c name = (.ok id, c1, k))
    (halive : name ∈ env.processAlive)
    (hhealthy : env.health name = .healthy) :
    getClient env c1 name = (.ok id, c1, 0) := by
  have hcreate : ∀ c0 : ClientCache,
      ((createNewClient env c0 name).1, (createNewClient env c0 name).2, (1 : Nat))
          = (.ok id, c1, k) →
        c1.entries.lookup name = some id ∧ name ∈ env.running := by
    intro c0 h
    simp only [Prod.mk.injEq] at h
    obtain ⟨hr, hlk⟩ := createNewClient_ok env c0 name id h.1
    exact ⟨h.2.1 ▸ hlk, hr⟩
  have hkey : c1.entries.lookup name = some id ∧ name ∈ env.running := by
    unfold getClient at hfirst
    rcases hl : c.entries.lookup name with _ | cached <;> rw [hl] at hfirst
    · exact hcreate c hfirst
    · by_cases hr : name ∈ env.running
      · by_cases ha : name ∈ env.processAlive
        · by_cases hv : verifyConnection (env.health name) = true
          · simp only [hr, if_true, ha, hv] at hfirst
            simp only [Prod.mk.injEq, Except.ok.injEq] at hfirst
            refine ⟨?_, hr⟩
            rw [← hfirst.2.1, hl, hfirst.1]
          · simp only [hr, if_true, ha, hv, if_false] at hfirst
            exact hcreate _ hfirst
        · simp only [hr, if_true, ha, if_false] at hfirst
          exact hcreate _ hfirst
      · simp only [hr, if_false] at hfirst
        exact hcreate _ hfirst
  simp [getClient, hkey.1, hkey.2, halive, hhealthy, verifyConnection]

/-- Witness for C7: after a first acquisition that created and cached client
0, the immediate second acquisition returns the same client without a
rebuild. -/
theorem second_acquire_is_cache_hit_witness :
    getClient
        { running := ["srv"], processAlive := ["srv"],
          health := fun _ => .healthy, connectOk := ["srv"],
          listCallOk := ["srv"], toolNames := fun _ => [],
          closeThrows := [] }
        { entries := [("srv", 0)], nextId := 1 } "srv" =
      (.ok 0, { entries := [("srv", 0)], nextId := 1 }, 0) :=
  second_acquire_is_cache_hit
    { running := ["srv"], processAlive := ["srv"],
      health := fun _ => .healthy, connectOk := ["srv"],
      listCallOk := ["srv"], toolNames := fun _ => [],
      closeThrows := [] }
    emptyCache "srv" 0 { entries := [("srv", 0)], nextId := 1 } 1
    rfl (by decide) rfl

/-! ### Tool Invocation Facade and Smoke-Test Runner (tools.ts / tests.ts)

`callTool` catches every failure — acquisition or invocation — and reports a
structured `{result: null, error}` value instead of throwing.  The response
normalization (extracting the first text content item and attempting a JSON
parse of it) is collapsed into the oracle's returned result string, since the
claims below depend only on whether the call reports an error.  `runTests`
verifies the server is registered, lists its tools, synthesizes one
empty-argument test per tool (these never carry an `expected` clause, so the
expectation-matching branch of `runTestCase` is not exercised), and runs them
sequentially. -/

structure TestEnv where
  conn : ConnEnv
  callOutcome : String → String → Except String String

structure CallToolResponse where
  result : Option String
  error : Option String
deriving DecidableEq, Repr

def callTool (env : TestEnv) (c : ClientCache) (server tool : String) :
    CallToolResponse × ClientCache :=
  match getClient env.conn c server with
  | (.error e, c1, _) => ({ result := none, error := some (errMessage e) }, c1)
  | (.ok _, c1, _) =>
    match env.callOutcome server tool with
    | .error m => ({ result := none, error := some m }, c1)
    | .ok r => ({ result := some r, error := none }, c1)

structure TestCase where
  name : String
  description : String
  tool : String
deriving DecidableEq, Repr

structure TestResult where
  name : String
  passed : Bool
  message : String
  error : Option String
deriving DecidableEq, Repr

/-- Embedding of `runTestCase` for a synthesized (expectation-free) case: a
tool-call error fails the case, anything else passes. -/
def runTestCase (env : TestEnv) (c : ClientCache) (serverName : String)
    (t : TestCase) : TestResult × ClientCache :=
  let p := callTool env c serverName t.tool
  match p.1.error with
  | some m =>
    ({ name := t.name, passed := false, message := "Tool call failed: " ++ m,
       error := some m }, p.2)
  | none =>
    ({ name := t.name, passed := true, message := "Test passed",
       error := none }, p.2)

/-- Sequential execution of the synthesized cases (the `for … await` loop). -/
def runCases (env : TestEnv) (serverName : String) :
    ClientCache → List TestCase → List TestResult × ClientCache
  | c, [] => ([], c)
  | c, t :: ts =>
    let p := runTestCase env c serverName t
    let q := runCases env serverName p.2 ts
    (p.1 :: q.1, q.2)

structure TestSummary where
  total : Nat
  passed : Nat
  failed : Nat
deriving DecidableEq, Repr

structure RunTestsResponse where
  results : List TestResult
  summary : TestSummary
deriving DecidableEq, Repr

/-- Embedding of `runTests`: fail fast with `ServerNotFoundError` when the
server is not registered (the only error the catch re-throws); any other
setup failure produces the single synthetic failing "Test suite setup" case;
otherwise synthesize one empty-argument case per listed tool, run them
sequentially, and summarize. -/
def runTests (env : TestEnv) (c : ClientCache) (serverName : String) :
    Except MCPError RunTestsResponse × ClientCache :=
  if serverName ∈ env.conn.running then
    match listTools env.conn c serverName with
    | (.error e, c1, _) =>
      (.ok { results := [{ name := "Test suite setup", passed := false,
                           message := "Failed to setup test suite: " ++ errMessage e,
                           error := some (errMessage e) }],
             summary := { total := 1, passed := 0, failed := 1 } }, c1)
    | (.ok tools, c1, _) =>
      let basicTests := tools.map (fun tool =>
        { name := "List " ++ tool ++ " schema",
          description := "Check that " ++ tool ++ " is available and has a valid schema",
          tool := tool : TestCase })
      let p := runCases env serverName c1 basicTests
      let passed := p.1.countP (fun r => r.passed)
      ( .ok { results := p.1,
              summary := { total := p.1.length, passed := passed,
                           failed := p.1.length - passed } }, p.2)
  else
    (.error (.serverNotFound serverName), c)

theorem runCases_length (env : TestEnv) (serverName : String)
    (ts : List TestCase) : ∀ c, (runCases env serverName c ts).1.length = ts.length := by
  induction ts with
  | nil => intro c; rfl
  | cons t ts ih => intro c; simp [runCases, ih]

/-- C6: whenever the smoke-test run returns a result, the summary satisfies
`total = passed + failed` and `total` equals the number of result records;
and when setup succeeded, `total` equals the number of (distinct) tools the
server's tool listing reported at test-run time — one synthesized
empty-argument case per listed tool, executed sequentially. -/
theorem runTests_summary_invariant (env : TestEnv) (c : ClientCache)
    (serverName : String) (resp : RunTestsResponse) (c1 : ClientCache)
    (h : runTests env c serverName = (.ok resp, c1)) :
    resp.summary.total = resp.summary.passed + resp.summary.failed ∧
    resp.summary.total = resp.results.length ∧
    (∀ ts c2 k, listTools env.conn c serverName = (.ok ts, c2, k) →
      resp.summary.total = ts.length ∧
      (ts.Nodup → resp.summary.total = ts.dedup.length)) := by
  unfold runTests at h
  by_cases hr : serverName ∈ env.conn.running
  · rw [if_pos hr] at h
    rcases hlt : listTools env.conn c serverName with ⟨res, c2, k⟩
    rw [hlt] at h
    cases res with
    | error e =>
      simp only [Prod.mk.injEq, Except.ok.injEq] at h
      rw [← h.1]
      refine ⟨rfl, rfl, ?_⟩
      intro ts c3 k3 hok
      simp at hok
    | ok tools =>
      simp only [Prod.mk.injEq, Except.ok.injEq] at h
      rw [← h.1]
      have hlen := runCases_length env serverName
        (tools.map (fun tool =>
          { name := "List " ++ tool ++ " schema",
            description := "Check that " ++ tool ++ " is available and has a valid schema",
            tool := tool : TestCase })) c2
      have hcount : List.countP (fun r => r.passed)
          (runCases env serverName c2 (tools.map (fun tool =>
            { name := "List " ++ tool ++ " schema",
              description := "Check that " ++ tool ++ " is available and has a valid schema",
              tool := tool : TestCase }))).1 ≤
          (runCases env serverName c2 (tools.map (fun tool =>
            { name := "List " ++ tool ++ " schema",
              description := "Check that " ++ tool ++ " is available and has a valid schema",
              tool := tool : TestCase }))).1.length :=
        List.countP_le_length _
      refine ⟨by simp only []; omega, rfl, ?_⟩
      intro ts c3 k3 hok
      simp only [Prod.mk.injEq, Except.ok.injEq] at hok
      obtain ⟨hts, -, -⟩ := hok
      subst hts
      constructor
      · simpa using hlen
      · intro hnd
        rw [hnd.dedup]
        simpa using hlen
  · rw [if_neg hr] at h
    simp at h

/-- Smoke-test example collaborators: a single registered, healthy server
"srv" advertising one tool "echo" whose empty-argument call succeeds. -/
def testEnvW : TestEnv :=
  { conn :=
      { running := ["srv"], processAlive := ["srv"],
        health := fun _ => .healthy, connectOk := ["srv"],
        listCallOk := ["srv"], toolNames := fun _ => ["echo"],
        closeThrows := [] },
    callOutcome := fun _ _ => .ok "success" }

def respW : RunTestsResponse :=
  { results := [{ name := "List echo schema", passed := true,
                  message := "Test passed", error := none }],
    summary := { total := 1, passed := 1, failed := 0 } }

/-- Witness for C6 at the one-tool server: the run yields one passing test
and a summary satisfying the invariant. -/
theorem runTests_summary_invariant_witness :
    respW.summary.total = respW.summary.passed + respW.summary.failed ∧
    respW.summary.total = respW.results.length ∧
    (∀ ts c2 k, listTools testEnvW.conn emptyCache "srv" = (.ok ts, c2, k) →
      respW.summary.total = ts.length ∧
      (ts.Nodup → respW.summary.total = ts.dedup.length)) :=
  runTests_summary_invariant testEnvW emptyCache "srv" respW
    { entries := [("srv", 0)], nextId := 1 } rfl

/-! ### Stopping a server (stopServer) and log retrieval (getServerLogs)

`stopServer` looks in `runningServers`; for an unknown name it still evicts
any cached client and reports `{name, status: "stopped"}`.  For a known name
it kills the process, deletes the map entry, evicts the cached client and
waits a cleanup moment; a synchronous failure while killing lands in the
catch block, which still attempts cache eviction and then re-throws (a
`ServerNotFoundError` there would be answered with "stopped", but the
preceding membership test makes that unreachable). -/

structure StopEnv where
  killThrows : List String
  closeThrows : List String
deriving DecidableEq, Repr

structure ServerOperationResponse where
  name : String
  status : String
deriving DecidableEq, Repr

def stopServer (env : StopEnv) (running : List String) (cache : ClientCache)
    (serverName : String) :
    Except String ServerOperationResponse × List String × ClientCache :=
  if serverName ∈ running then
    if serverName ∈ env.killThrows then
      (.error "kill failed", running,
       removeClientFromCache (serverName ∈ env.closeThrows) cache serverName)
    else
      (.ok { name := serverName, status := "stopped" },
       running.filter (fun n => n ≠ serverName),
       removeClientFromCache (serverName ∈ env.closeThrows) cache serverName)
  else
    (.ok { name := serverName, status := "stopped" }, running,
     removeClientFromCache (serverName ∈ env.closeThrows) cache serverName)

/-- C8: stopping a server that was never deployed returns
`{name, status: "stopped"}` without raising — stop is idempotent with
respect to absence. -/
theorem stop_absent_returns_stopped (env : StopEnv) (running : List String)
    (cache : ClientCache) (serverName : String) (h : serverName ∉ running) :
    (stopServer env running cache serverName).1 =
      .ok { name := serverName, status := "stopped" } := by
  simp [stopServer, h]

/-- Witness for C8 at a concrete never-deployed name. -/
theorem stop_absent_returns_stopped_witness :
    (stopServer { killThrows := [], closeThrows := [] } [] emptyCache "ghost").1 =
      .ok { name := "ghost", status := "stopped" } :=
  stop_absent_returns_stopped { killThrows := [], closeThrows := [] } []
    emptyCache "ghost" (by decide)

theorem lookup_filter_ne (l : List (String × Nat)) (n : String) :
    (l.filter (fun e => e.1 ≠ n)).lookup n = none := by
  induction l with
  | nil => rfl
  | cons e t ih =>
    rcases e with ⟨a, v⟩
    by_cases he : a = n
    · simpa [List.filter, he] using ih
    · have hne : (n == a) = false := by
        simp only [beq_eq_false_iff_ne, ne_eq]
        exact fun hna => he hna.symm
      simpa [List.filter, he, List.lookup, hne] using ih

theorem removeClientFromCache_lookup_none (b : Bool) (cache : ClientCache)
    (n : String) :
    ((removeClientFromCache b cache n).entries.lookup n) = none := by
  unfold removeClientFromCache
  by_cases hl : (cache.entries.lookup n).isSome
  · simp only [hl, if_true]
    exact lookup_filter_ne _ _
  · simp only [hl, if_false]
    exact Option.not_isSome_iff_eq_none.mp hl

/-- C9: on every path on which `stopServer` returns, the name is afterwards
absent from the live-process map and from the client cache — the
not-running path also evicts, and eviction deletes the entry in its
`finally` block even when closing the cached transport fails (the result is
quantified over both `killThrows` and `closeThrows` oracles). -/
theorem stop_clears_both_maps (env : StopEnv) (running : List String)
    (cache : ClientCache) (serverName : String) (r : ServerOperationResponse)
    (running1 : List String) (cache1 : ClientCache)
    (h : stopServer env running cache serverName = (.ok r, running1, cache1)) :
    serverName ∉ running1 ∧ cache1.entries.lookup serverName = none := by
  unfold stopServer at h
  by_cases hrun : serverName ∈ running
  · by_cases hk : serverName ∈ env.killThrows
    · simp [hrun, hk] at h
    · simp only [hrun, if_true, hk, if_false, Prod.mk.injEq] at h
      refine ⟨h.2.1 ▸ ?_, h.2.2 ▸ removeClientFromCache_lookup_none _ _ _⟩
      simp
  · simp only [hrun, if_false, Prod.mk.injEq] at h
    exact ⟨h.2.1 ▸ hrun, h.2.2 ▸ removeClientFromCache_lookup_none _ _ _⟩

/-- Witness for C9: stopping a not-running name whose cached transport close
fails still clears the cache entry. -/
theorem stop_clears_both_maps_witness :
    "srv" ∉ ([] : List String) ∧
      ((removeClientFromCache true
          { entries := [("srv", 3)], nextId := 4 } "srv").entries.lookup "srv")
        = none :=
  stop_clears_both_maps { killThrows := [], closeThrows := ["srv"] } []
    { entries := [("srv", 3)], nextId := 4 } "srv"
    { name := "srv", status := "stopped" } []
    (removeClientFromCache true { entries := [("srv", 3)], nextId := 4 } "srv")
    rfl

/-! ### Log retrieval (logs.ts) -/

def squote : String := (Char.ofNat 39).toString

/-- The text returned when the server is registered but its log file does not
exist. -/
def noLogsMsg (serverName : String) : String :=
  "No logs found for server " ++ squote ++ serverName ++ squote

/-- Embedding of `readLastLines` for a file delivered in one read (the
splice keeps the last `lineCount` complete lines; the trailing fragment, if
non-empty, is appended at end of stream; `slice(-0)` keeps everything). -/
def readLastLines (content : String) (lineCount : Nat) : String :=
  let parts := content.toList.splitOn NL
  let kept := parts.dropLast.drop (parts.dropLast.length - lineCount)
  let buffer := (parts.getLast?).getD []
  let ls := kept ++ (if buffer.isEmpty then [] else [buffer])
  let lastN := if lineCount = 0 then ls else ls.drop (ls.length - lineCount)
  String.mk (List.flatten (List.intersperse [NL] lastN))

structure GetLogsResponse where
  logs : String
  error : Option String
deriving DecidableEq, Repr

/-- Embedding of `getServerLogs`: verify the server is registered (a
`ServerNotFoundError` is re-thrown); when the log file is missing, answer
with the placeholder text and no error; otherwise read the last
`lineCount` lines. -/
def getServerLogs (running : List String) (logFileExists : Bool)
    (content : String) (serverName : String) (lineCount : Nat) :
    Except MCPError GetLogsResponse :=
  if serverName ∈ running then
    if logFileExists then
      .ok { logs := readLastLines content lineCount, error := none }
    else
      .ok { logs := noLogsMsg serverName, error := none }
  else
    .error (.serverNotFound serverName)

/-- C10: for a registered server whose log file does not exist, the get-logs
operation succeeds with the literal text
"No logs found for server '<name>'" (a non-empty string) and no error
field. -/
theorem getLogs_missing_file_placeholder (running : List String)
    (content serverName : String) (lineCount : Nat)
    (h : serverName ∈ running) :
    getServerLogs running false content serverName lineCount =
      .ok { logs := noLogsMsg serverName, error := none } ∧
    (noLogsMsg serverName).data ≠ [] := by
  refine ⟨by simp [getServerLogs, h], ?_⟩
  simp [noLogsMsg, squote]

/-- Witness for C10 at a concrete registered server with no log file. -/
theorem getLogs_missing_file_placeholder_witness :
    getServerLogs ["srv"] false "" "srv" 100 =
      .ok { logs := noLogsMsg "srv", error := none } ∧
    (noLogsMsg "srv").data ≠ [] :=
  getLogs_missing_file_placeholder ["srv"] "" "srv" 100 (by decide)

end MCP
